import Mathlib

/-!
Verification of the MemeETF fund-ledger program (src/programs/mtf-etf/src/lib.rs).

The program is a Solana/Anchor contract with four instructions:
`initialize_etf`, `buy_etf`, `sell_etf`, `close_etf`.  We embed it shallowly:

* A `Pubkey` is a natural number; the hardcoded `DEV_WALLET` constant is the
  base58 decoding of the on-chain literal, read as a 32-byte big-endian number.
* The persistent `ETF` account and the lamport balances of all accounts form a
  `Chain` state; lamport balances are a total map `Nat → Nat` keyed by pubkey,
  with the u64 invariant carried as hypotheses (`< U64`) in the theorems.
* u64 arithmetic is embedded over `Nat`: `checked_add`/`checked_sub` mirror the
  Rust checked operations, and `wadd`/`wsub` mirror the raw (wrapping)
  `+=`/`-=` lamport adjustments used by `sell_etf`/`close_etf`; every theorem
  that touches them carries explicit no-overflow side conditions, under which
  wrap-on-overflow and panic-on-overflow builds of the program agree.
* System-program transfers (used by `buy_etf` via `invoke`) fail when the
  payer balance is insufficient or the recipient balance would overflow; a
  failed transfer aborts the instruction (`Err.transferFailed`).
* Anchor events are collected in the returned event list; the external
  `Clock` timestamp is not modelled (no claim mentions it).
* An instruction handler returns `Except Err (Chain × List Event × Nat)`
  (the `Nat` being the minted / returned quantity that the specification calls
  the operation's result); the hosting runtime rolls the whole transaction
  back when a handler fails, which `applyOp` models by returning the original
  state on error.
-/

namespace MtfEtf

/-- Modulus of u64 arithmetic. -/
def U64 : Nat := 18446744073709551616

/-- Hardcoded dev wallet GdtZWBCTUrFneA7FdFaxyudhCLTKgBM4a9NVR3k4rPJx, decoded
from base58 to its 32-byte value read as a big-endian natural number. -/
def DEV_WALLET : Nat :=
  105082367926046007569796161285452969854866246097384031940712286870104235044449

/-- The persistent ETF account (struct `ETF` in lib.rs). -/
structure ETF where
  lister : Nat
  token_addresses : List Nat
  total_supply : Nat
  accumulated_fees : Nat
  bump : Nat
  deriving DecidableEq, Repr

/-- The on-chain state visible to the program: the ETF account data, the
address of the ETF account, and the lamport balance of every account. -/
structure Chain where
  etf : ETF
  etf_key : Nat
  lamports : Nat → Nat

/-- The error enum of the program (enum `ErrorCode` in lib.rs).  Note that it
has no `InsufficientSupply` variant: both the supply check and the solvency
check of `sell_etf` use `InsufficientFunds`. -/
inductive ErrorCode where
  | InsufficientFunds
  | InvalidAmount
  | Unauthorized
  | InvalidTokenPercentages
  | CannotCloseWithSupply
  | InvalidTokenCount
  | InvalidDevWallet
  | InvalidListerAccount
  deriving DecidableEq, Repr

/-- A failure of an instruction: either a program `ErrorCode`, or the failure
of an invoked system-program transfer. -/
inductive Err where
  | code (c : ErrorCode)
  | transferFailed
  deriving DecidableEq, Repr

/-- Fee recipient role (enum `FeeType` in lib.rs). -/
inductive FeeType where
  | Creator
  | Dev
  deriving DecidableEq, Repr

/-- Events emitted by the program (timestamps omitted: they come from the
external `Clock` sysvar). -/
inductive Event where
  | ETFCreated (etf_address lister token_count : Nat)
  | TokenPurchase (etf_address investor token_address sol_amount percentage : Nat)
  | FeeTransfer (etf_address recipient amount : Nat) (fee_type : FeeType)
  | ETFClosed (etf_address lister : Nat)
  deriving DecidableEq, Repr

/-- The u16 sum of the percentage vector: `token_percentages.iter().map(|&p| p
as u16).sum()` in lib.rs line 51.  The accumulator is a u16 and therefore
reduced mod 65536; entries are u8 values (carried as `< 256` hypotheses). -/
def u16sum (ps : List Nat) : Nat :=
  ps.foldl (fun acc p => (acc + p) % 65536) 0

/-- u64 `checked_add`. -/
def checked_add (a b : Nat) : Option Nat :=
  if a + b < U64 then some (a + b) else none

/-- u64 `checked_sub`. -/
def checked_sub (a b : Nat) : Option Nat :=
  if b ≤ a then some (a - b) else none

/-- Raw (wrapping) u64 addition, used for the direct lamport `+=`. -/
def wadd (a b : Nat) : Nat := (a + b) % U64

/-- Raw (wrapping) u64 subtraction, used for the direct lamport `-=`. -/
def wsub (a b : Nat) : Nat := (a + (U64 - b % U64)) % U64

/-- Per-asset allocation, lib.rs line 137:
`(sol_after_fees as u128 * (*percentage as u128) / 100) as u64`.
The u128 intermediate cannot overflow for u64 × u8 operands, so only the final
cast to u64 is modelled by the mod. -/
def sol_for_token (sol_after_fees percentage : Nat) : Nat :=
  sol_after_fees * percentage / 100 % U64

/-- A system-program transfer of `amt` lamports from `src` to `dst`: fails if
the payer balance is insufficient or the recipient balance would overflow u64,
otherwise moves the lamports. -/
def transferL (l : Nat → Nat) (src dst amt : Nat) : Option (Nat → Nat) :=
  if amt ≤ l src then
    if Function.update l src (l src - amt) dst + amt < U64 then
      some (Function.update (Function.update l src (l src - amt)) dst
        (Function.update l src (l src - amt) dst + amt))
    else none
  else none

/-- Handler `initialize_etf` (lib.rs lines 13-37): requires 1-10 token
addresses, creates the account with `total_supply = 0` and
`accumulated_fees = 0`, and emits `ETFCreatedEvent`. -/
def initialize_etf (etf_key lister : Nat) (token_addresses : List Nat) (bump : Nat) :
    Except Err (ETF × List Event) :=
  if 0 < token_addresses.length ∧ token_addresses.length ≤ 10 then
    .ok ({ lister := lister, token_addresses := token_addresses, total_supply := 0,
           accumulated_fees := 0, bump := bump },
         [Event.ETFCreated etf_key lister token_addresses.length])
  else .error (.code .InvalidTokenCount)

/-- Handler `buy_etf` (lib.rs lines 39-156).  Checks, in source order:
`sol_amount > 0`, percentage-vector length, u16 percentage sum = 100, dev
wallet, lister account; then transfers `sol_after_fees` to the ETF account and
the two fees to lister and dev wallet, emits the two fee events and one
purchase event per token, and mints `sol_after_fees` supply with
`checked_add` (overflow surfaces as `InvalidAmount`).  The returned `Nat` is
`tokens_to_mint`. -/
def buy_etf (st : Chain) (investor lister_account dev_wallet sol_amount : Nat)
    (token_percentages : List Nat) : Except Err (Chain × List Event × Nat) :=
  if 0 < sol_amount then
    if token_percentages.length = st.etf.token_addresses.length then
      if u16sum token_percentages = 100 then
        if dev_wallet = DEV_WALLET then
          if lister_account = st.etf.lister then
            match transferL st.lamports investor st.etf_key
                (sol_amount - (sol_amount / 200 + sol_amount / 200)) with
            | none => .error .transferFailed
            | some l1 =>
              match transferL l1 investor lister_account (sol_amount / 200) with
              | none => .error .transferFailed
              | some l2 =>
                match transferL l2 investor dev_wallet (sol_amount / 200) with
                | none => .error .transferFailed
                | some l3 =>
                  match checked_add st.etf.total_supply
                      (sol_amount - (sol_amount / 200 + sol_amount / 200)) with
                  | none => .error (.code .InvalidAmount)
                  | some new_supply =>
                    .ok ({ st with
                            etf := { st.etf with total_supply := new_supply },
                            lamports := l3 },
                      Event.FeeTransfer st.etf_key lister_account (sol_amount / 200)
                          FeeType.Creator ::
                      Event.FeeTransfer st.etf_key dev_wallet (sol_amount / 200)
                          FeeType.Dev ::
                      (st.etf.token_addresses.zip token_percentages).map
                        (fun tp => Event.TokenPurchase st.etf_key investor tp.1
                          (sol_for_token
                            (sol_amount - (sol_amount / 200 + sol_amount / 200)) tp.2)
                          tp.2),
                      sol_amount - (sol_amount / 200 + sol_amount / 200))
          else .error (.code .InvalidListerAccount)
        else .error (.code .InvalidDevWallet)
      else .error (.code .InvalidTokenPercentages)
    else .error (.code .InvalidTokenPercentages)
  else .error (.code .InvalidAmount)

/-- The four raw lamport adjustments of `sell_etf` (lib.rs lines 199-206):
the ETF account loses the full `sol_to_return`, the investor gains
`sol_after_fees`, the lister gains the creator fee, the dev wallet gains the
dev fee. -/
def sellLamports (l : Nat → Nat) (etf_key investor lister_account dev_wallet amt : Nat) :
    Nat → Nat :=
  let l1 := Function.update l etf_key (wsub (l etf_key) amt)
  let l2 := Function.update l1 investor (wadd (l1 investor) (amt - (amt / 200 + amt / 200)))
  let l3 := Function.update l2 lister_account (wadd (l2 lister_account) (amt / 200))
  Function.update l3 dev_wallet (wadd (l3 dev_wallet) (amt / 200))

/-- Handler `sell_etf` (lib.rs lines 158-231).  Checks, in source order:
`tokens_to_sell > 0`, dev wallet, lister account, `total_supply ≥
tokens_to_sell` (error `InsufficientFunds`), then the rent-floor solvency
check `etf_lamports ≥ sol_to_return + min_rent` (also `InsufficientFunds`);
on success adjusts the four lamport balances, emits the two fee events and
burns the supply with `checked_sub`.  The returned `Nat` is the
`sol_after_fees` credited to the investor. -/
def sell_etf (st : Chain) (investor lister_account dev_wallet tokens_to_sell min_rent : Nat) :
    Except Err (Chain × List Event × Nat) :=
  if 0 < tokens_to_sell then
    if dev_wallet = DEV_WALLET then
      if lister_account = st.etf.lister then
        if tokens_to_sell ≤ st.etf.total_supply then
          if (tokens_to_sell + min_rent) % U64 ≤ st.lamports st.etf_key then
            match checked_sub st.etf.total_supply tokens_to_sell with
            | none => .error (.code .InvalidAmount)
            | some new_supply =>
              .ok ({ st with
                      etf := { st.etf with total_supply := new_supply },
                      lamports := sellLamports st.lamports st.etf_key investor
                        lister_account dev_wallet tokens_to_sell },
                   [Event.FeeTransfer st.etf_key lister_account (tokens_to_sell / 200)
                      FeeType.Creator,
                    Event.FeeTransfer st.etf_key dev_wallet (tokens_to_sell / 200)
                      FeeType.Dev],
                   tokens_to_sell - (tokens_to_sell / 200 + tokens_to_sell / 200))
          else .error (.code .InsufficientFunds)
        else .error (.code .InsufficientFunds)
      else .error (.code .InvalidListerAccount)
    else .error (.code .InvalidDevWallet)
  else .error (.code .InvalidAmount)

/-- Handler `close_etf` (lib.rs lines 236-259): requires the signer to be the
lister (`Unauthorized`) and `total_supply = 0` (`CannotCloseWithSupply`), then
moves the entire remaining ETF balance, rent included, to the lister and emits
`ETFClosedEvent`. -/
def close_etf (st : Chain) (lister : Nat) : Except Err (Chain × List Event) :=
  if lister = st.etf.lister then
    if st.etf.total_supply = 0 then
      .ok ({ st with
              lamports := Function.update (Function.update st.lamports st.etf_key 0) lister
                (wadd (Function.update st.lamports st.etf_key 0 lister)
                  (st.lamports st.etf_key)) },
           [Event.ETFClosed st.etf_key lister])
    else .error (.code .CannotCloseWithSupply)
  else .error (.code .Unauthorized)

/-- An instruction against an existing fund. -/
inductive Op where
  | buy (investor lister_account dev_wallet sol_amount : Nat) (token_percentages : List Nat)
  | sell (investor lister_account dev_wallet tokens_to_sell min_rent : Nat)
  | close (lister : Nat)

/-- Run one instruction handler, keeping only the resulting state. -/
def runOp (st : Chain) : Op → Except Err Chain
  | .buy i la dw a ps => (buy_etf st i la dw a ps).map (fun r => r.1)
  | .sell i la dw t mr => (sell_etf st i la dw t mr).map (fun r => r.1)
  | .close l => (close_etf st l).map (fun r => r.1)

/-- Transaction semantics of the hosting runtime: a failed instruction rolls
the whole transaction back, leaving the state untouched. -/
def applyOp (st : Chain) (op : Op) : Chain :=
  match runOp st op with
  | .ok st2 => st2
  | .error _ => st

/-- Run a sequence of buys and sells in which every operation must succeed,
accumulating the total minted shares and the total redeemed shares.  A `close`
is not a trade and yields `none`. -/
def runTrades (st : Chain) : List Op → Option (Chain × Nat × Nat)
  | [] => some (st, 0, 0)
  | op :: rest =>
    match op with
    | .buy i la dw a ps =>
      match buy_etf st i la dw a ps with
      | .ok (st2, _, minted) =>
        match runTrades st2 rest with
        | some (c, m, r) => some (c, minted + m, r)
        | none => none
      | .error _ => none
    | .sell i la dw t mr =>
      match sell_etf st i la dw t mr with
      | .ok (st2, _, _) =>
        match runTrades st2 rest with
        | some (c, m, r) => some (c, m, t + r)
        | none => none
      | .error _ => none
    | .close _ => none

/-- The final supply together with the accumulated minted/redeemed totals of a
trade sequence. -/
def tradeTotals : Option (Chain × Nat × Nat) → Option (Nat × Nat × Nat)
  | some (c, m, r) => some (c.etf.total_supply, m, r)
  | none => none

/-- The error of a failed instruction, if any. -/
def resultError : {α : Type} → Except Err α → Option Err
  | _, .error e => some e
  | _, .ok _ => none

/-- The minted (buy) or returned (sell) quantity of a successful instruction. -/
def resultMinted : Except Err (Chain × List Event × Nat) → Option Nat
  | .ok (_, _, n) => some n
  | .error _ => none

/-- The events emitted by a successful instruction. -/
def resultEvents : Except Err (Chain × List Event × Nat) → List Event
  | .ok (_, ev, _) => ev
  | .error _ => []

/-- The lamport balance of account `k` after a successful buy or sell. -/
def lamportsAfter (k : Nat) : Except Err (Chain × List Event × Nat) → Option Nat
  | .ok (c, _, _) => some (c.lamports k)
  | .error _ => none

/-- The lamport balance of account `k` after a successful close. -/
def lamportsAfterClose (k : Nat) : Except Err (Chain × List Event) → Option Nat
  | .ok (c, _) => some (c.lamports k)
  | .error _ => none

/-! ## Arithmetic support lemmas -/

theorem wadd_eq {a b : Nat} (h : a + b < U64) : wadd a b = a + b := by
  unfold wadd
  exact Nat.mod_eq_of_lt h

theorem wsub_eq {a b : Nat} (hba : b ≤ a) (ha : a < U64) : wsub a b = a - b := by
  unfold wsub U64 at *
  omega

theorem foldl_u16 (ps : List Nat) :
    ∀ acc, acc + ps.sum ≤ 65535 →
      ps.foldl (fun acc p => (acc + p) % 65536) acc = acc + ps.sum := by
  induction ps with
  | nil => intro acc _; simp
  | cons p t ih =>
    intro acc h
    simp only [List.foldl_cons, List.sum_cons] at *
    rw [Nat.mod_eq_of_lt (by omega), ih (acc + p) (by omega)]
    omega

theorem sum_le_of_bounded (ps : List Nat) (h : ∀ p ∈ ps, p < 256) :
    ps.sum ≤ 256 * ps.length := by
  induction ps with
  | nil => simp
  | cons p t ih =>
    simp only [List.sum_cons, List.length_cons]
    have hp := h p (List.mem_cons_self p t)
    have ht := ih (fun q hq => h q (List.mem_cons_of_mem p hq))
    omega

theorem u16sum_eq (ps : List Nat) (hb : ∀ p ∈ ps, p < 256) (hl : ps.length ≤ 10) :
    u16sum ps = ps.sum := by
  have h1 := sum_le_of_bounded ps hb
  unfold u16sum
  rw [foldl_u16 ps 0 (by omega)]
  omega

theorem alloc_upper (net : Nat) (ps : List Nat) :
    (ps.map (fun w => net * w / 100)).sum ≤ net * ps.sum / 100 := by
  induction ps with
  | nil => simp
  | cons p t ih =>
    simp only [List.map_cons, List.sum_cons]
    rw [Nat.mul_add]
    have h1 : net * p / 100 * 100 ≤ net * p := Nat.div_mul_le_self _ _
    have h2 : net * t.sum / 100 * 100 ≤ net * t.sum := Nat.div_mul_le_self _ _
    have key : net * p / 100 + net * t.sum / 100 ≤ (net * p + net * t.sum) / 100 := by
      rw [Nat.le_div_iff_mul_le (by norm_num)]
      omega
    omega

theorem alloc_lower (net : Nat) (ps : List Nat) :
    net * ps.sum ≤ 100 * (ps.map (fun w => net * w / 100)).sum + 99 * ps.length := by
  induction ps with
  | nil => simp
  | cons p t ih =>
    simp only [List.map_cons, List.sum_cons, List.length_cons]
    rw [Nat.mul_add]
    have h1 : 100 * (net * p / 100) + net * p % 100 = net * p := Nat.div_add_mod _ _
    have h2 : net * p % 100 < 100 := Nat.mod_lt _ (by norm_num)
    omega

/-! ## Inversion lemmas for successful handler runs -/

theorem transferL_some {l : Nat → Nat} {src dst amt : Nat} {l2 : Nat → Nat}
    (h : transferL l src dst amt = some l2) :
    amt ≤ l src ∧
    l2 = Function.update (Function.update l src (l src - amt)) dst
      (Function.update l src (l src - amt) dst + amt) := by
  unfold transferL at h
  split at h
  · split at h
    · injection h with h2
      exact ⟨by assumption, h2.symm⟩
    · exact Option.noConfusion h
  · exact Option.noConfusion h

theorem transferL_other {l l2 : Nat → Nat} {src dst amt k : Nat}
    (h : transferL l src dst amt = some l2) (hk1 : k ≠ src) (hk2 : k ≠ dst) :
    l2 k = l k := by
  obtain ⟨-, h2⟩ := transferL_some h
  subst h2
  simp [Function.update_apply, hk1, hk2]

theorem transferL_zero {l l2 : Nat → Nat} {src dst : Nat}
    (h : transferL l src dst 0 = some l2) : ∀ k, l2 k = l k := by
  obtain ⟨-, h2⟩ := transferL_some h
  subst h2
  intro k
  simp only [Function.update_apply, Nat.sub_zero, Nat.add_zero]
  split_ifs <;> simp_all

theorem resultMinted_ok {r : Except Err (Chain × List Event × Nat)} {m : Nat}
    (h : resultMinted r = some m) : ∃ c ev, r = .ok (c, ev, m) := by
  rcases r with e | ⟨c, ev, n⟩
  · simp only [resultMinted] at h
    exact Option.noConfusion h
  · simp only [resultMinted, Option.some.injEq] at h
    subst h
    exact ⟨c, ev, rfl⟩

theorem buy_ok_inv {st : Chain} {i la dw a : Nat} {ps : List Nat}
    {st2 : Chain} {ev : List Event} {m : Nat}
    (h : buy_etf st i la dw a ps = .ok (st2, ev, m)) :
    0 < a ∧ ps.length = st.etf.token_addresses.length ∧ u16sum ps = 100 ∧
    dw = DEV_WALLET ∧ la = st.etf.lister ∧
    m = a - (a / 200 + a / 200) ∧
    st2.etf.total_supply = st.etf.total_supply + m ∧
    st2.etf.accumulated_fees = st.etf.accumulated_fees ∧
    st2.etf_key = st.etf_key ∧
    ev = Event.FeeTransfer st.etf_key la (a / 200) FeeType.Creator ::
         Event.FeeTransfer st.etf_key dw (a / 200) FeeType.Dev ::
         (st.etf.token_addresses.zip ps).map
           (fun tp => Event.TokenPurchase st.etf_key i tp.1
             (sol_for_token (a - (a / 200 + a / 200)) tp.2) tp.2) ∧
    ∃ l1 l2 l3,
      transferL st.lamports i st.etf_key (a - (a / 200 + a / 200)) = some l1 ∧
      transferL l1 i la (a / 200) = some l2 ∧
      transferL l2 i dw (a / 200) = some l3 ∧
      st2.lamports = l3 := by
  unfold buy_etf at h
  split at h <;> try exact Except.noConfusion h
  split at h <;> try exact Except.noConfusion h
  split at h <;> try exact Except.noConfusion h
  split at h <;> try exact Except.noConfusion h
  split at h <;> try exact Except.noConfusion h
  split at h <;> try exact Except.noConfusion h
  split at h <;> try exact Except.noConfusion h
  split at h <;> try exact Except.noConfusion h
  split at h <;> try exact Except.noConfusion h
  rename_i hpos hlen hsum hdw hla a1 v1 e1 a2 v2 e2 a3 v3 e3 a4 v4 e4
  unfold checked_add at e4
  split at e4
  · injection e4 with hns
    simp only [Except.ok.injEq, Prod.mk.injEq] at h
    obtain ⟨hst2, hev, hm⟩ := h
    subst hst2 hev hm hns
    exact ⟨hpos, hlen, hsum, hdw, hla, rfl, rfl, rfl, rfl, rfl,
      v1, v2, v3, e1, e2, e3, rfl⟩
  · exact Option.noConfusion e4

theorem sell_ok_inv {st : Chain} {i la dw t mr : Nat}
    {st2 : Chain} {ev : List Event} {m : Nat}
    (h : sell_etf st i la dw t mr = .ok (st2, ev, m)) :
    0 < t ∧ dw = DEV_WALLET ∧ la = st.etf.lister ∧
    t ≤ st.etf.total_supply ∧
    (t + mr) % U64 ≤ st.lamports st.etf_key ∧
    m = t - (t / 200 + t / 200) ∧
    st2.etf.total_supply + t = st.etf.total_supply ∧
    st2.etf.accumulated_fees = st.etf.accumulated_fees ∧
    st2.etf_key = st.etf_key ∧
    st2.lamports = sellLamports st.lamports st.etf_key i la dw t ∧
    ev = [Event.FeeTransfer st.etf_key la (t / 200) FeeType.Creator,
          Event.FeeTransfer st.etf_key dw (t / 200) FeeType.Dev] := by
  unfold sell_etf at h
  split at h <;> try exact Except.noConfusion h
  split at h <;> try exact Except.noConfusion h
  split at h <;> try exact Except.noConfusion h
  split at h <;> try exact Except.noConfusion h
  split at h <;> try exact Except.noConfusion h
  split at h <;> try exact Except.noConfusion h
  rename_i hpos hdw hla hsup hrent a1 v1 e1
  unfold checked_sub at e1
  rw [if_pos hsup] at e1
  injection e1 with hns
  simp only [Except.ok.injEq, Prod.mk.injEq] at h
  obtain ⟨hst2, hev, hm⟩ := h
  subst hst2 hev hm hns
  refine ⟨hpos, hdw, hla, hsup, hrent, rfl, ?_, rfl, rfl, rfl, rfl⟩
  show st.etf.total_supply - t + t = st.etf.total_supply
  omega

theorem close_ok_inv {st : Chain} {lister : Nat} {st2 : Chain} {ev : List Event}
    (h : close_etf st lister = .ok (st2, ev)) :
    lister = st.etf.lister ∧ st.etf.total_supply = 0 ∧
    st2.etf = st.etf ∧ st2.etf_key = st.etf_key ∧
    st2.lamports = Function.update (Function.update st.lamports st.etf_key 0) lister
      (wadd (Function.update st.lamports st.etf_key 0 lister) (st.lamports st.etf_key)) ∧
    ev = [Event.ETFClosed st.etf_key lister] := by
  unfold close_etf at h
  split at h <;> try exact Except.noConfusion h
  split at h <;> try exact Except.noConfusion h
  rename_i hla hsup
  simp only [Except.ok.injEq, Prod.mk.injEq] at h
  obtain ⟨hst2, hev⟩ := h
  subst hst2 hev
  exact ⟨hla, hsup, rfl, rfl, rfl, rfl⟩

/-! ## State-machine helper lemmas -/

theorem applyOp_of_error {st : Chain} {op : Op} {e : Err}
    (h : runOp st op = .error e) : applyOp st op = st := by
  unfold applyOp
  rw [h]

theorem applyOp_of_ok {st : Chain} {op : Op} {c : Chain}
    (h : runOp st op = .ok c) : applyOp st op = c := by
  unfold applyOp
  rw [h]

theorem applyOp_accumulated (st : Chain) (op : Op) :
    (applyOp st op).etf.accumulated_fees = st.etf.accumulated_fees := by
  cases op with
  | buy i la dw a ps =>
    rcases hb : buy_etf st i la dw a ps with e | ⟨st2, ev, m⟩
    · rw [applyOp_of_error (e := e) (by simp [runOp, hb, Except.map])]
    · rw [applyOp_of_ok (c := st2) (by simp [runOp, hb, Except.map])]
      exact (buy_ok_inv hb).2.2.2.2.2.2.2.1
  | sell i la dw t mr =>
    rcases hs : sell_etf st i la dw t mr with e | ⟨st2, ev, m⟩
    · rw [applyOp_of_error (e := e) (by simp [runOp, hs, Except.map])]
    · rw [applyOp_of_ok (c := st2) (by simp [runOp, hs, Except.map])]
      exact (sell_ok_inv hs).2.2.2.2.2.2.2.1
  | close l =>
    rcases hc : close_etf st l with e | ⟨st2, ev⟩
    · rw [applyOp_of_error (e := e) (by simp [runOp, hc, Except.map])]
    · rw [applyOp_of_ok (c := st2) (by simp [runOp, hc, Except.map])]
      rw [(close_ok_inv hc).2.2.1]

theorem foldl_accumulated (ops : List Op) : ∀ st : Chain,
    (ops.foldl applyOp st).etf.accumulated_fees = st.etf.accumulated_fees := by
  induction ops with
  | nil => intro st; rfl
  | cons op rest ih =>
    intro st
    rw [List.foldl_cons, ih, applyOp_accumulated]

theorem runTrades_conserve (ops : List Op) : ∀ (st c : Chain) (m r : Nat),
    runTrades st ops = some (c, m, r) →
    c.etf.total_supply + r = st.etf.total_supply + m := by
  induction ops with
  | nil =>
    intro st c m r h
    simp only [runTrades, Option.some.injEq, Prod.mk.injEq] at h
    obtain ⟨h1, h2, h3⟩ := h
    subst h1 h2 h3
    omega
  | cons op rest ih =>
    intro st c m r h
    cases op with
    | buy i la dw a ps =>
      simp only [runTrades] at h
      split at h <;> try exact Option.noConfusion h
      rename_i st2 ev2 mm heq
      split at h <;> try exact Option.noConfusion h
      rename_i c2 m2 r2 heq2
      simp only [Option.some.injEq, Prod.mk.injEq] at h
      obtain ⟨hc, hm, hrr⟩ := h
      subst hc hm hrr
      have h1 := (buy_ok_inv heq).2.2.2.2.2.2.1
      have h2 := ih st2 c2 m2 r2 heq2
      omega
    | sell i la dw t mr =>
      simp only [runTrades] at h
      split at h <;> try exact Option.noConfusion h
      rename_i st2 ev2 mm heq
      split at h <;> try exact Option.noConfusion h
      rename_i c2 m2 r2 heq2
      simp only [Option.some.injEq, Prod.mk.injEq] at h
      obtain ⟨hc, hm, hrr⟩ := h
      subst hc hm hrr
      have h1 := (sell_ok_inv heq).2.2.2.2.2.2.1
      have h2 := ih st2 c2 m2 r2 heq2
      omega
    | close l =>
      simp only [runTrades] at h
      exact Option.noConfusion h

/-! ## Claim theorems -/

/-- C1: for every operation (buy_etf, sell_etf, close_etf) and every input,
if the handler returns an error then the hosting runtime rolls the
transaction back and no state change is observable: the whole state, and in
particular `total_supply` and every account's lamport balance (ETF backing
balance, depositor, creator, operator), are exactly as before the call. -/
theorem error_no_state_change (st : Chain) (op : Op) (e : Err)
    (h : runOp st op = .error e) :
    applyOp st op = st ∧
    (applyOp st op).etf.total_supply = st.etf.total_supply ∧
    (∀ k, (applyOp st op).lamports k = st.lamports k) := by
  have hs : applyOp st op = st := applyOp_of_error h
  exact ⟨hs, by rw [hs], fun k => by rw [hs]⟩

/-- Witness for C1: a buy of 0 lamports fails with `InvalidAmount` and leaves
the state untouched. -/
theorem error_no_state_change_witness :
    applyOp { etf := { lister := 2, token_addresses := [7], total_supply := 0,
                       accumulated_fees := 0, bump := 1 },
              etf_key := 9, lamports := fun _ => 1000 } (Op.buy 5 2 3 0 []) =
    { etf := { lister := 2, token_addresses := [7], total_supply := 0,
               accumulated_fees := 0, bump := 1 },
      etf_key := 9, lamports := fun _ => 1000 } :=
  (error_no_state_change _ (Op.buy 5 2 3 0 []) (Err.code ErrorCode.InvalidAmount) rfl).1

/-- C2: for every sequence of successful buys and sells starting from a fund
with zero outstanding supply, the final `total_supply` equals the sum of all
minted quantities minus the sum of all redeemed quantities, exactly. -/
theorem supply_conservation (st : Chain) (ops : List Op) (s m r : Nat)
    (h0 : st.etf.total_supply = 0)
    (h : tradeTotals (runTrades st ops) = some (s, m, r)) :
    s + r = m ∧ s = m - r := by
  rcases hr : runTrades st ops with _ | ⟨c, mm, rr⟩
  · rw [hr] at h
    exact Option.noConfusion h
  · rw [hr] at h
    simp only [tradeTotals, Option.some.injEq, Prod.mk.injEq] at h
    obtain ⟨h1, h2, h3⟩ := h
    subst h1 h2 h3
    have := runTrades_conserve ops st c mm rr hr
    omega

/-- Witness for C2: buy 1000 (mints 990) then sell 400 leaves supply 590. -/
theorem supply_conservation_witness : 590 + 400 = 990 ∧ 590 = 990 - 400 :=
  supply_conservation
    { etf := { lister := 2, token_addresses := [7], total_supply := 0,
               accumulated_fees := 0, bump := 1 },
      etf_key := 9, lamports := fun _ => 100000 }
    [Op.buy 5 2 DEV_WALLET 1000 [100], Op.sell 5 2 DEV_WALLET 400 10]
    590 990 400 rfl (by decide)

/-- C10: `accumulated_fees` is 0 in every reachable state: `initialize_etf`
writes 0 and no instruction ever writes the field again. -/
theorem accumulated_fees_always_zero (etf_key lister : Nat) (toks : List Nat)
    (bump : Nat) (etf0 : ETF) (ev : List Event) (l0 : Nat → Nat) (ops : List Op)
    (h : initialize_etf etf_key lister toks bump = .ok (etf0, ev)) :
    (ops.foldl applyOp { etf := etf0, etf_key := etf_key, lamports := l0 }).etf.accumulated_fees
      = 0 := by
  have h0 : etf0.accumulated_fees = 0 := by
    unfold initialize_etf at h
    split at h
    · simp only [Except.ok.injEq, Prod.mk.injEq] at h
      obtain ⟨h1, _⟩ := h
      rw [← h1]
    · exact Except.noConfusion h
  exact (foldl_accumulated ops _).trans h0

/-- Witness for C10: a freshly created one-token fund followed by a buy still
has `accumulated_fees = 0`. -/
theorem accumulated_fees_always_zero_witness :
    (([Op.buy 5 2 DEV_WALLET 1000 [100]] : List Op).foldl applyOp
      { etf := { lister := 2, token_addresses := [7], total_supply := 0,
                 accumulated_fees := 0, bump := 1 },
        etf_key := 9, lamports := fun _ => 100000 }).etf.accumulated_fees = 0 :=
  accumulated_fees_always_zero 9 2 [7] 1
    { lister := 2, token_addresses := [7], total_supply := 0,
      accumulated_fees := 0, bump := 1 }
    [Event.ETFCreated 9 2 1] (fun _ => 100000) [Op.buy 5 2 DEV_WALLET 1000 [100]] rfl

/-- C3: buy_etf and sell_etf compute creator fee and dev fee by the same
formula, floor(amount / 200) each; on success buy_etf mints exactly
`net = amount - creator_fee - dev_fee` and sell_etf credits the investor
exactly `net = tokens - creator_fee - dev_fee`; the emitted fee facts carry
exactly `amount / 200` in both operations, so identical input quantities give
identical fees. -/
theorem fee_determinism (st : Chain) (i la dw a t mr : Nat) (ps : List Nat) :
    (∀ m, resultMinted (buy_etf st i la dw a ps) = some m →
      m = a - (a / 200 + a / 200)) ∧
    (∀ m, resultMinted (sell_etf st i la dw t mr) = some m →
      m = t - (t / 200 + t / 200)) ∧
    (∀ m, resultMinted (buy_etf st i la dw a ps) = some m →
      Event.FeeTransfer st.etf_key la (a / 200) FeeType.Creator ∈
        resultEvents (buy_etf st i la dw a ps) ∧
      Event.FeeTransfer st.etf_key dw (a / 200) FeeType.Dev ∈
        resultEvents (buy_etf st i la dw a ps)) ∧
    (∀ m, resultMinted (sell_etf st i la dw t mr) = some m →
      Event.FeeTransfer st.etf_key la (t / 200) FeeType.Creator ∈
        resultEvents (sell_etf st i la dw t mr) ∧
      Event.FeeTransfer st.etf_key dw (t / 200) FeeType.Dev ∈
        resultEvents (sell_etf st i la dw t mr)) := by
  refine ⟨?_, ?_, ?_, ?_⟩
  · intro m hm
    obtain ⟨c, ev, hb⟩ := resultMinted_ok hm
    exact (buy_ok_inv hb).2.2.2.2.2.1
  · intro m hm
    obtain ⟨c, ev, hs⟩ := resultMinted_ok hm
    exact (sell_ok_inv hs).2.2.2.2.2.1
  · intro m hm
    obtain ⟨c, ev, hb⟩ := resultMinted_ok hm
    have hev := (buy_ok_inv hb).2.2.2.2.2.2.2.2.2.1
    rw [hb]
    simp only [resultEvents]
    rw [hev]
    exact ⟨by simp, by simp⟩
  · intro m hm
    obtain ⟨c, ev, hs⟩ := resultMinted_ok hm
    have hev := (sell_ok_inv hs).2.2.2.2.2.2.2.2.2.2
    rw [hs]
    simp only [resultEvents]
    rw [hev]
    exact ⟨by simp, by simp⟩

/-- Witness for C3: a buy of 1000 mints 990 and emits a creator-fee fact of
1000 / 200 = 5. -/
theorem fee_determinism_witness :
    990 = 1000 - (1000 / 200 + 1000 / 200) ∧
    Event.FeeTransfer 9 2 (1000 / 200) FeeType.Creator ∈
      resultEvents (buy_etf
        { etf := { lister := 2, token_addresses := [7], total_supply := 0,
                   accumulated_fees := 0, bump := 1 },
          etf_key := 9, lamports := fun _ => 100000 } 5 2 DEV_WALLET 1000 [100]) := by
  refine ⟨?_, ?_⟩
  · exact (fee_determinism
      { etf := { lister := 2, token_addresses := [7], total_supply := 0,
                 accumulated_fees := 0, bump := 1 },
        etf_key := 9, lamports := fun _ => 100000 } 5 2 DEV_WALLET 1000 77 3 [100]).1
      990 (by decide)
  · exact ((fee_determinism
      { etf := { lister := 2, token_addresses := [7], total_supply := 0,
                 accumulated_fees := 0, bump := 1 },
        etf_key := 9, lamports := fun _ => 100000 } 5 2 DEV_WALLET 1000 77 3 [100]).2.2.1
      990 (by decide)).1

/-- C4 counterexample: the claim says a redemption with
`shares_to_redeem > total_supply` fails with a dedicated `InsufficientSupply`
error, which the spec's taxonomy distinguishes from the solvency error
`InsufficientFunds`.  The program's `ErrorCode` enum has no
`InsufficientSupply` variant: the supply shortfall below (supply 5, redeem 10,
ample balance) returns exactly the same `ErrorCode.InsufficientFunds` that the
pure balance shortfall (supply 100, redeem 10, balance 5) returns. -/
theorem sell_shortfall_error_counterexample :
    resultError (sell_etf
      { etf := { lister := 2, token_addresses := [7], total_supply := 5,
                 accumulated_fees := 0, bump := 1 },
        etf_key := 9, lamports := fun _ => 100000 } 5 2 DEV_WALLET 10 0)
      = some (Err.code ErrorCode.InsufficientFunds) ∧
    resultError (sell_etf
      { etf := { lister := 2, token_addresses := [7], total_supply := 100,
                 accumulated_fees := 0, bump := 1 },
        etf_key := 9, lamports := fun _ => 5 } 5 2 DEV_WALLET 10 0)
      = some (Err.code ErrorCode.InsufficientFunds) :=
  ⟨by decide, by decide⟩

/-- C4 (amended): for every fund state and every `tokens_to_sell` exceeding
`total_supply` (with the other preconditions met), sell_etf fails with
`ErrorCode.InsufficientFunds` — the program reuses this code for the supply
shortfall, having no `InsufficientSupply` variant — rather than underflowing
the supply counter: the state is unchanged. -/
theorem sell_shortfall_insufficient_funds (st : Chain) (i la dw t mr : Nat)
    (h0 : 0 < t) (hdw : dw = DEV_WALLET) (hla : la = st.etf.lister)
    (hs : st.etf.total_supply < t) :
    resultError (sell_etf st i la dw t mr) = some (Err.code ErrorCode.InsufficientFunds) ∧
    applyOp st (Op.sell i la dw t mr) = st := by
  have hna : sell_etf st i la dw t mr = .error (.code .InsufficientFunds) := by
    unfold sell_etf
    rw [if_pos h0, if_pos hdw, if_pos hla, if_neg (by omega)]
  refine ⟨by rw [hna]; rfl, ?_⟩
  exact applyOp_of_error (e := .code .InsufficientFunds) (by simp [runOp, hna, Except.map])

/-- Witness for C4 (amended): redeeming 10 from supply 5 fails with
`InsufficientFunds`. -/
theorem sell_shortfall_insufficient_funds_witness :
    resultError (sell_etf
      { etf := { lister := 2, token_addresses := [7], total_supply := 5,
                 accumulated_fees := 0, bump := 1 },
        etf_key := 9, lamports := fun _ => 77777 } 5 2 DEV_WALLET 10 0)
      = some (Err.code ErrorCode.InsufficientFunds) :=
  (sell_shortfall_insufficient_funds _ 5 2 DEV_WALLET 10 0 (by decide) rfl rfl
    (by decide)).1

/-- C9 counterexample: the claim says a deposit of 100 units (amount < 200)
causes no fee transfer side effects and emits no FeeTransferred fact; the
deposit does succeed with both fees floored to 0, but the program still emits
a `FeeTransferEvent` (with amount 0). -/
theorem buy_small_amount_emits_fee_event :
    resultMinted (buy_etf
      { etf := { lister := 2, token_addresses := [7], total_supply := 0,
                 accumulated_fees := 0, bump := 1 },
        etf_key := 9, lamports := fun _ => 1000 } 5 2 DEV_WALLET 100 [100])
      = some 100 ∧
    Event.FeeTransfer 9 2 0 FeeType.Creator ∈
      resultEvents (buy_etf
        { etf := { lister := 2, token_addresses := [7], total_supply := 0,
                   accumulated_fees := 0, bump := 1 },
          etf_key := 9, lamports := fun _ => 1000 } 5 2 DEV_WALLET 100 [100]) :=
  ⟨by decide, by decide⟩

/-- C9 (amended): for a successful deposit with amount < 200 both fees floor
to 0, the full amount is minted (`net = amount`, the deposit is not an
error), and no lamports move to the creator or operator addresses; however
the code still performs the two zero-lamport fee transfers and emits the two
FeeTransferred facts, carrying amount 0. -/
theorem buy_small_amount_fees_zero (st : Chain) (i la dw a : Nat) (ps : List Nat)
    (m : Nat) (hlt : a < 200)
    (hla1 : la ≠ i) (hla2 : la ≠ st.etf_key)
    (hdw1 : dw ≠ i) (hdw2 : dw ≠ st.etf_key)
    (h : resultMinted (buy_etf st i la dw a ps) = some m) :
    m = a ∧ a / 200 = 0 ∧
    Event.FeeTransfer st.etf_key la 0 FeeType.Creator ∈
      resultEvents (buy_etf st i la dw a ps) ∧
    Event.FeeTransfer st.etf_key dw 0 FeeType.Dev ∈
      resultEvents (buy_etf st i la dw a ps) ∧
    lamportsAfter la (buy_etf st i la dw a ps) = some (st.lamports la) ∧
    lamportsAfter dw (buy_etf st i la dw a ps) = some (st.lamports dw) := by
  have hdiv : a / 200 = 0 := Nat.div_eq_of_lt hlt
  obtain ⟨c, ev, hb⟩ := resultMinted_ok h
  have inv := buy_ok_inv hb
  have hm : m = a := by
    have := inv.2.2.2.2.2.1
    omega
  have hev := inv.2.2.2.2.2.2.2.2.2.1
  obtain ⟨l1, l2, l3, ht1, ht2, ht3, hl⟩ := inv.2.2.2.2.2.2.2.2.2.2
  rw [hdiv] at ht2 ht3
  refine ⟨hm, hdiv, ?_, ?_, ?_, ?_⟩
  · rw [hb]
    simp only [resultEvents]
    rw [hev, hdiv]
    simp
  · rw [hb]
    simp only [resultEvents]
    rw [hev, hdiv]
    simp
  · rw [hb]
    simp only [lamportsAfter, Option.some.injEq]
    rw [hl, transferL_zero ht3 la, transferL_zero ht2 la,
      transferL_other ht1 hla1 hla2]
  · rw [hb]
    simp only [lamportsAfter, Option.some.injEq]
    rw [hl, transferL_zero ht3 dw, transferL_zero ht2 dw,
      transferL_other ht1 hdw1 hdw2]

/-- Witness for C9 (amended): a deposit of 150 mints 150, emits a zero-amount
creator-fee fact, and leaves the creator balance unchanged. -/
theorem buy_small_amount_fees_zero_witness :
    (150 : Nat) / 200 = 0 ∧
    Event.FeeTransfer 9 2 0 FeeType.Creator ∈
      resultEvents (buy_etf
        { etf := { lister := 2, token_addresses := [7], total_supply := 0,
                   accumulated_fees := 0, bump := 1 },
          etf_key := 9, lamports := fun _ => 1000 } 5 2 DEV_WALLET 150 [100]) ∧
    lamportsAfter 2 (buy_etf
      { etf := { lister := 2, token_addresses := [7], total_supply := 0,
                 accumulated_fees := 0, bump := 1 },
        etf_key := 9, lamports := fun _ => 1000 } 5 2 DEV_WALLET 150 [100])
      = some 1000 := by
  have H := buy_small_amount_fees_zero
    { etf := { lister := 2, token_addresses := [7], total_supply := 0,
               accumulated_fees := 0, bump := 1 },
      etf_key := 9, lamports := fun _ => 1000 } 5 2 DEV_WALLET 150 [100] 150
    (by decide) (by decide) (by decide) (by decide) (by decide) (by decide)
  exact ⟨H.2.1, H.2.2.1, H.2.2.2.2.1⟩

theorem sellLamports_values (l : Nat → Nat) (ek i la dw t : Nat)
    (d1 : ek ≠ i) (d2 : ek ≠ la) (d3 : ek ≠ dw)
    (d4 : i ≠ la) (d5 : i ≠ dw) (d6 : la ≠ dw)
    (hbe : l ek < U64) (ht : t ≤ l ek)
    (hbi : l i + (t - (t / 200 + t / 200)) < U64)
    (hbl : l la + t / 200 < U64)
    (hbd : l dw + t / 200 < U64) :
    sellLamports l ek i la dw t ek = l ek - t ∧
    sellLamports l ek i la dw t i = l i + (t - (t / 200 + t / 200)) ∧
    sellLamports l ek i la dw t la = l la + t / 200 ∧
    sellLamports l ek i la dw t dw = l dw + t / 200 := by
  unfold sellLamports
  simp only [Function.update_apply]
  simp only [if_neg d1, if_neg d2, if_neg d3, if_neg d4, if_neg d5, if_neg d6,
    if_neg (Ne.symm d1), if_neg (Ne.symm d2), if_neg (Ne.symm d3),
    if_neg (Ne.symm d4), if_neg (Ne.symm d5), if_neg (Ne.symm d6),
    if_pos rfl]
  exact ⟨wsub_eq ht hbe, wadd_eq hbi, wadd_eq hbl, wadd_eq hbd⟩

/-- C5: given the sell preconditions, sell_etf fails with `InsufficientFunds`
exactly when the fund balance is below `gross + min_rent`; on success the
fund balance drops by exactly the gross amount, split as the net to the
holder, the creator fee to the lister and the dev fee to the dev wallet —
fees are carved out of the gross, not added on top. -/
theorem sell_solvency_and_split (st : Chain) (i la dw t mr : Nat)
    (h0 : 0 < t) (hdw : dw = DEV_WALLET) (hla : la = st.etf.lister)
    (hsup : t ≤ st.etf.total_supply) (hbound : t + mr < U64)
    (d1 : st.etf_key ≠ i) (d2 : st.etf_key ≠ la) (d3 : st.etf_key ≠ dw)
    (d4 : i ≠ la) (d5 : i ≠ dw) (d6 : la ≠ dw)
    (hbe : st.lamports st.etf_key < U64)
    (hbi : st.lamports i + (t - (t / 200 + t / 200)) < U64)
    (hbl : st.lamports la + t / 200 < U64)
    (hbd : st.lamports dw + t / 200 < U64) :
    (st.lamports st.etf_key < t + mr →
      resultError (sell_etf st i la dw t mr) =
        some (Err.code ErrorCode.InsufficientFunds)) ∧
    (t + mr ≤ st.lamports st.etf_key →
      lamportsAfter st.etf_key (sell_etf st i la dw t mr) =
        some (st.lamports st.etf_key - t) ∧
      lamportsAfter i (sell_etf st i la dw t mr) =
        some (st.lamports i + (t - (t / 200 + t / 200))) ∧
      lamportsAfter la (sell_etf st i la dw t mr) =
        some (st.lamports la + t / 200) ∧
      lamportsAfter dw (sell_etf st i la dw t mr) =
        some (st.lamports dw + t / 200)) := by
  have hmod : (t + mr) % U64 = t + mr := Nat.mod_eq_of_lt hbound
  constructor
  · intro hlow
    have hna : sell_etf st i la dw t mr = .error (.code .InsufficientFunds) := by
      unfold sell_etf
      rw [if_pos h0, if_pos hdw, if_pos hla, if_pos hsup, hmod,
        if_neg (by omega)]
    rw [hna]
    rfl
  · intro hhigh
    have hcs : checked_sub st.etf.total_supply t = some (st.etf.total_supply - t) := by
      unfold checked_sub
      rw [if_pos hsup]
    obtain ⟨v1, v2, v3, v4⟩ := sellLamports_values st.lamports st.etf_key i la dw t
      d1 d2 d3 d4 d5 d6 hbe (by omega) hbi hbl hbd
    have hok : sell_etf st i la dw t mr =
        .ok ({ st with
                etf := { st.etf with total_supply := st.etf.total_supply - t },
                lamports := sellLamports st.lamports st.etf_key i la dw t },
             [Event.FeeTransfer st.etf_key la (t / 200) FeeType.Creator,
              Event.FeeTransfer st.etf_key dw (t / 200) FeeType.Dev],
             t - (t / 200 + t / 200)) := by
      unfold sell_etf
      rw [if_pos h0, if_pos hdw, if_pos hla, if_pos hsup, hmod,
        if_pos hhigh, hcs]
    rw [hok]
    exact ⟨congrArg some v1, congrArg some v2, congrArg some v3, congrArg some v4⟩

/-- Witness for C5: selling 1000 with rent floor 100 from a fund holding
1000000 lamports pays 990 to the holder, 5 to the lister, 5 to the dev
wallet, and debits the fund by exactly 1000. -/
theorem sell_solvency_and_split_witness :
    lamportsAfter 9 (sell_etf
      { etf := { lister := 2, token_addresses := [7], total_supply := 5000,
                 accumulated_fees := 0, bump := 1 },
        etf_key := 9, lamports := fun k => if k = 9 then 1000000 else 1000 }
      5 2 DEV_WALLET 1000 100) = some 999000 ∧
    lamportsAfter 5 (sell_etf
      { etf := { lister := 2, token_addresses := [7], total_supply := 5000,
                 accumulated_fees := 0, bump := 1 },
        etf_key := 9, lamports := fun k => if k = 9 then 1000000 else 1000 }
      5 2 DEV_WALLET 1000 100) = some 1990 ∧
    lamportsAfter 2 (sell_etf
      { etf := { lister := 2, token_addresses := [7], total_supply := 5000,
                 accumulated_fees := 0, bump := 1 },
        etf_key := 9, lamports := fun k => if k = 9 then 1000000 else 1000 }
      5 2 DEV_WALLET 1000 100) = some 1005 := by
  have H := (sell_solvency_and_split
    { etf := { lister := 2, token_addresses := [7], total_supply := 5000,
               accumulated_fees := 0, bump := 1 },
      etf_key := 9, lamports := fun k => if k = 9 then 1000000 else 1000 }
    5 2 DEV_WALLET 1000 100 (by decide) rfl rfl (by decide) (by decide)
    (by decide) (by decide) (by decide) (by decide) (by decide) (by decide)
    (by decide) (by decide) (by decide) (by decide)).2 (by decide)
  exact ⟨H.1, H.2.1, H.2.2.1⟩

/-- C6: for every successful deposit, each per-asset allocation equals
floor(net * weight / 100) with no u64 truncation (the u128 intermediate
cannot overflow), the allocations sum to at most the net amount, and the
rounding shortfall is at most one unit per asset beyond the first. -/
theorem buy_allocation_bounds (st : Chain) (i la dw a : Nat) (ps : List Nat)
    (net : Nat) (ha : a < U64)
    (hp : ∀ p ∈ ps, p < 256)
    (hn1 : 1 ≤ st.etf.token_addresses.length)
    (hn10 : st.etf.token_addresses.length ≤ 10)
    (h : resultMinted (buy_etf st i la dw a ps) = some net) :
    (∀ p ∈ ps, sol_for_token net p = net * p / 100) ∧
    (ps.map (fun p => sol_for_token net p)).sum ≤ net ∧
    net - (ps.map (fun p => sol_for_token net p)).sum ≤ ps.length - 1 := by
  obtain ⟨c, ev, hb⟩ := resultMinted_ok h
  have inv := buy_ok_inv hb
  have hlen : ps.length = st.etf.token_addresses.length := inv.2.1
  have hsum16 : u16sum ps = 100 := inv.2.2.1
  have hnet : net = a - (a / 200 + a / 200) := inv.2.2.2.2.2.1
  have hsum : ps.sum = 100 := by
    rw [← u16sum_eq ps hp (by omega)]
    exact hsum16
  have hnetU : net < U64 := by omega
  have hple : ∀ p ∈ ps, p ≤ 100 := by
    intro p hpin
    have := List.single_le_sum (fun x _ => Nat.zero_le x) p hpin
    omega
  have hsft : ∀ p ∈ ps, sol_for_token net p = net * p / 100 := by
    intro p hpin
    unfold sol_for_token
    apply Nat.mod_eq_of_lt
    have h1 : net * p ≤ net * 100 := Nat.mul_le_mul_left net (hple p hpin)
    have h2 : net * p / 100 ≤ net * 100 / 100 := Nat.div_le_div_right h1
    have h3 : net * 100 / 100 = net := by omega
    omega
  have hmapeq : ps.map (fun p => sol_for_token net p) =
      ps.map (fun p => net * p / 100) := List.map_congr_left hsft
  refine ⟨hsft, ?_, ?_⟩
  · rw [hmapeq]
    have hup := alloc_upper net ps
    rw [hsum] at hup
    have h3 : net * 100 / 100 = net := by omega
    omega
  · rw [hmapeq]
    have hlow := alloc_lower net ps
    rw [hsum] at hlow
    have hlen1 : 1 ≤ ps.length := by omega
    omega

/-- Witness for C6: net 990000000 with weights [33,33,34] allocates
326700000, 326700000, 336600000 (the TokenPurchaseEvents carry exactly these
amounts), and the rounding shortfall is within 2 units (here 0). -/
theorem buy_allocation_bounds_witness :
    sol_for_token 990000000 33 = 326700000 ∧
    sol_for_token 990000000 34 = 336600000 ∧
    990000000 - (([33, 33, 34] : List Nat).map
      (fun p => sol_for_token 990000000 p)).sum ≤ 3 - 1 ∧
    Event.TokenPurchase 9 5 7 326700000 33 ∈
      resultEvents (buy_etf
        { etf := { lister := 2, token_addresses := [7, 8, 11], total_supply := 0,
                   accumulated_fees := 0, bump := 1 },
          etf_key := 9, lamports := fun _ => 2000000000 }
        5 2 DEV_WALLET 1000000000 [33, 33, 34]) ∧
    Event.TokenPurchase 9 5 11 336600000 34 ∈
      resultEvents (buy_etf
        { etf := { lister := 2, token_addresses := [7, 8, 11], total_supply := 0,
                   accumulated_fees := 0, bump := 1 },
          etf_key := 9, lamports := fun _ => 2000000000 }
        5 2 DEV_WALLET 1000000000 [33, 33, 34]) := by
  have H := buy_allocation_bounds
    { etf := { lister := 2, token_addresses := [7, 8, 11], total_supply := 0,
               accumulated_fees := 0, bump := 1 },
      etf_key := 9, lamports := fun _ => 2000000000 }
    5 2 DEV_WALLET 1000000000 [33, 33, 34] 990000000
    (by decide) (by decide) (by decide) (by decide) (by decide)
  exact ⟨(H.1 33 (by decide)).trans (by decide),
    (H.1 34 (by decide)).trans (by decide), H.2.2, by decide, by decide⟩

theorem buy_valid_weights_no_ITP (st : Chain) (i la dw a : Nat) (ps : List Nat)
    (h0 : 0 < a) (hl : ps.length = st.etf.token_addresses.length)
    (hsum : u16sum ps = 100) :
    resultError (buy_etf st i la dw a ps) ≠
      some (Err.code ErrorCode.InvalidTokenPercentages) := by
  unfold buy_etf
  rw [if_pos h0, if_pos hl, if_pos hsum]
  by_cases hdw : dw = DEV_WALLET
  · rw [if_pos hdw]
    by_cases hla : la = st.etf.lister
    · rw [if_pos hla]
      rcases t1 : transferL st.lamports i st.etf_key (a - (a / 200 + a / 200))
        with _ | l1
      · simp [resultError, t1]
      · rcases t2 : transferL l1 i la (a / 200) with _ | l2
        · simp [resultError, t2]
        · rcases t3 : transferL l2 i dw (a / 200) with _ | l3
          · simp [resultError, t2, t3]
          · rcases t4 : checked_add st.etf.total_supply
                (a - (a / 200 + a / 200)) with _ | ns
            · simp [resultError, t2, t3, t4]
            · simp [resultError, t2, t3, t4]
    · rw [if_neg hla]
      simp [resultError]
  · rw [if_neg hdw]
    simp [resultError]

/-- C7: with a positive amount and a fund of 1-10 assets, buy_etf fails with
`InvalidTokenPercentages` (the code's name for the spec's InvalidWeights)
exactly when the weight list's length differs from the asset list's length or
the weights do not sum to 100 (the u16 accumulator cannot overflow for up to
10 u8 entries). -/
theorem buy_invalid_weights_iff (st : Chain) (i la dw a : Nat) (ps : List Nat)
    (h0 : 0 < a) (hp : ∀ p ∈ ps, p < 256)
    (hn1 : 1 ≤ st.etf.token_addresses.length)
    (hn10 : st.etf.token_addresses.length ≤ 10) :
    resultError (buy_etf st i la dw a ps) =
      some (Err.code ErrorCode.InvalidTokenPercentages) ↔
    (ps.length ≠ st.etf.token_addresses.length ∨ ps.sum ≠ 100) := by
  constructor
  · intro hres
    by_contra hcon
    push_neg at hcon
    obtain ⟨hl, hs⟩ := hcon
    exact buy_valid_weights_no_ITP st i la dw a ps h0 hl
      (by rw [u16sum_eq ps hp (by omega), hs]) hres
  · intro hor
    by_cases hl : ps.length = st.etf.token_addresses.length
    · have hs : ps.sum ≠ 100 := by
        rcases hor with hbad | hbad
        · exact absurd hl hbad
        · exact hbad
      have hu : u16sum ps ≠ 100 := by
        rw [u16sum_eq ps hp (by omega)]
        exact hs
      unfold buy_etf
      rw [if_pos h0, if_pos hl, if_neg hu]
      rfl
    · unfold buy_etf
      rw [if_pos h0, if_neg hl]
      rfl

/-- Witness for C7: weights [50,30,10] (sum 90) on a 3-asset fund are
rejected with `InvalidTokenPercentages`. -/
theorem buy_invalid_weights_iff_witness :
    resultError (buy_etf
      { etf := { lister := 2, token_addresses := [7, 8, 11], total_supply := 0,
                 accumulated_fees := 0, bump := 1 },
        etf_key := 9, lamports := fun _ => 100000 }
      5 2 DEV_WALLET 1000 [50, 30, 10]) =
      some (Err.code ErrorCode.InvalidTokenPercentages) :=
  (buy_invalid_weights_iff
    { etf := { lister := 2, token_addresses := [7, 8, 11], total_supply := 0,
               accumulated_fees := 0, bump := 1 },
      etf_key := 9, lamports := fun _ => 100000 }
    5 2 DEV_WALLET 1000 [50, 30, 10] (by decide) (by decide) (by decide)
    (by decide)).mpr (Or.inr (by decide))

/-- C8: close_etf fails with `Unauthorized` when the requester is not the
fund's lister, fails with `CannotCloseWithSupply` when supply is positive,
and when the requester is the lister and the supply is zero it succeeds,
transferring the fund's entire remaining balance (rent floor included) to the
lister and leaving the fund balance at zero. -/
theorem close_authorization_and_payout (st : Chain) (r : Nat)
    (hne : r ≠ st.etf_key)
    (hbound : st.lamports r + st.lamports st.etf_key < U64) :
    (r ≠ st.etf.lister →
      resultError (close_etf st r) = some (Err.code ErrorCode.Unauthorized)) ∧
    (r = st.etf.lister → 0 < st.etf.total_supply →
      resultError (close_etf st r) =
        some (Err.code ErrorCode.CannotCloseWithSupply)) ∧
    (r = st.etf.lister → st.etf.total_supply = 0 →
      lamportsAfterClose st.etf_key (close_etf st r) = some 0 ∧
      lamportsAfterClose r (close_etf st r) =
        some (st.lamports r + st.lamports st.etf_key)) := by
  refine ⟨?_, ?_, ?_⟩
  · intro hr
    unfold close_etf
    rw [if_neg hr]
    rfl
  · intro hr hsup
    unfold close_etf
    rw [if_pos hr, if_neg (by omega)]
    rfl
  · intro hr hsup
    unfold close_etf
    rw [if_pos hr, if_pos hsup]
    constructor
    · simp only [lamportsAfterClose, Option.some.injEq]
      simp [Function.update_apply, Ne.symm hne]
    · simp only [lamportsAfterClose, Option.some.injEq]
      simp [Function.update_apply, hne]
      exact wadd_eq hbound

/-- Witness for C8: a stranger's close fails `Unauthorized`; the lister's
close of a zero-supply fund moves all 5000 fund lamports to the lister. -/
theorem close_authorization_and_payout_witness :
    resultError (close_etf
      { etf := { lister := 2, token_addresses := [7], total_supply := 0,
                 accumulated_fees := 0, bump := 1 },
        etf_key := 9, lamports := fun k => if k = 9 then 5000 else 300 } 3) =
      some (Err.code ErrorCode.Unauthorized) ∧
    lamportsAfterClose 9 (close_etf
      { etf := { lister := 2, token_addresses := [7], total_supply := 0,
                 accumulated_fees := 0, bump := 1 },
        etf_key := 9, lamports := fun k => if k = 9 then 5000 else 300 } 2) =
      some 0 ∧
    lamportsAfterClose 2 (close_etf
      { etf := { lister := 2, token_addresses := [7], total_supply := 0,
                 accumulated_fees := 0, bump := 1 },
        etf_key := 9, lamports := fun k => if k = 9 then 5000 else 300 } 2) =
      some 5300 := by
  refine ⟨?_, ?_, ?_⟩
  · exact (close_authorization_and_payout
      { etf := { lister := 2, token_addresses := [7], total_supply := 0,
                 accumulated_fees := 0, bump := 1 },
        etf_key := 9, lamports := fun k => if k = 9 then 5000 else 300 } 3
      (by decide) (by decide)).1 (by decide)
  · exact ((close_authorization_and_payout
      { etf := { lister := 2, token_addresses := [7], total_supply := 0,
                 accumulated_fees := 0, bump := 1 },
        etf_key := 9, lamports := fun k => if k = 9 then 5000 else 300 } 2
      (by decide) (by decide)).2.2 rfl rfl).1
  · exact ((close_authorization_and_payout
      { etf := { lister := 2, token_addresses := [7], total_supply := 0,
                 accumulated_fees := 0, bump := 1 },
        etf_key := 9, lamports := fun k => if k = 9 then 5000 else 300 } 2
      (by decide) (by decide)).2.2 rfl rfl).2

end MtfEtf
